import Mathlib

/-!
# Verification of the Conventions record-management server

A shallow embedding of the access-control and record-access layers of the
Conventions repository (Express/TypeScript server in `server/routes.ts`,
`server/index.ts` (storage, auth), `server/upload.ts`, `shared/schema.ts`),
together with proofs settling the frozen claims about it.

Modelling conventions used throughout:
* TypeScript strings are Lean `String`s; all character-level processing
  (trim, split, JSON encode/decode) is done on `String.data` lists so that
  every definition is executable and kernel-reducible.
* `undefined`/`null` are `Option.none`; nullable database columns are
  `Option String`.
* `JSON.stringify` applied to a list of strings, and `JSON.parse` restricted
  to the JSON fragment this application ever stores (arrays of strings and
  scalar string/number/bool/null values, no whitespace inside the document),
  are modelled by the executable codec below.  Inputs outside this fragment
  (e.g. nested objects) make the model parser fail where `JSON.parse` would
  succeed with a value of a non-string type; no stored value of this
  application and no theorem below touches such inputs.
* Asynchronous database calls are modelled as pure state passing over an
  explicit store (`List` of rows plus an id counter).
-/

namespace Conventions

/-! ## JavaScript string primitives -/

/-- Code points of the ECMAScript WhiteSpace and LineTerminator productions:
TAB, LF, VT, FF, CR, SP, NBSP, OGHAM SPACE MARK, the EN QUAD .. HAIR SPACE
range, LINE SEPARATOR, PARAGRAPH SEPARATOR, NARROW NO-BREAK SPACE, MEDIUM
MATHEMATICAL SPACE, IDEOGRAPHIC SPACE and ZWNBSP. -/
def jsWsCodes : List Nat :=
  [9, 10, 11, 12, 13, 32, 160, 5760, 8192, 8193, 8194, 8195, 8196, 8197,
   8198, 8199, 8200, 8201, 8202, 8232, 8233, 8239, 8287, 12288, 65279]

/-- The whitespace recognizer of JavaScript's `String.prototype.trim` and
`parseInt`: the full ECMAScript WhiteSpace/LineTerminator set. -/
def isWs (c : Char) : Bool := jsWsCodes.contains c.toNat

/-- C `isspace` on ASCII — the whitespace set accepted around a value by
Postgres's integer cast (TAB, LF, VT, FF, CR, SP). -/
def pgIsSpace (c : Char) : Bool := [9, 10, 11, 12, 13, 32].contains c.toNat

/-- `trim` on a character list: drop whitespace from both ends. -/
def jsTrimChars (l : List Char) : List Char :=
  ((l.dropWhile isWs).reverse.dropWhile isWs).reverse

/-- The whitespace trimming applied by the Postgres integer cast. -/
def pgTrimChars (l : List Char) : List Char :=
  ((l.dropWhile pgIsSpace).reverse.dropWhile pgIsSpace).reverse

/-- Model of `String.prototype.trim`. -/
def jsTrim (s : String) : String := ⟨jsTrimChars s.data⟩

/-- `String.prototype.split(sep)` with a single-character separator
(the only form the source uses: `s.split(',')`).  Returns the list of
(possibly empty) fields. -/
def splitOnChar (sep : Char) : List Char → List (List Char)
  | [] => [[]]
  | c :: rest =>
    match splitOnChar sep rest with
    | [] => if c = sep then [[], []] else [[c]]
    | g :: gs => if c = sep then [] :: g :: gs else (c :: g) :: gs

/-! ## JSON codec for the fragment used by the storage layer

`JSON.stringify` on a `string[]` value emits `["a","b"]` with `"` and `\`
escaped, the usual short escapes for control characters that have them, and
`\u00XX` escapes for the remaining control characters.  The decoder below
accepts exactly that output plus the scalar forms needed by the legacy-data
paths of `parseArray`. -/

/-- Lower-case hex digit for `n < 16`. -/
def hexDigitChar (n : Nat) : Char :=
  if n < 10 then Char.ofNat (48 + n) else Char.ofNat (87 + n)

/-- Numeric value of a hex digit character, `none` for non-hex characters. -/
def hexVal? (c : Char) : Option Nat :=
  if '0' ≤ c ∧ c ≤ '9' then some (c.toNat - 48)
  else if 'a' ≤ c ∧ c ≤ 'f' then some (c.toNat - 87)
  else if 'A' ≤ c ∧ c ≤ 'F' then some (c.toNat - 55)
  else none

/-- JSON escape of a single character, as emitted by `JSON.stringify`. -/
def escC (c : Char) : List Char :=
  if c = '"' then ['\\', '"']
  else if c = '\\' then ['\\', '\\']
  else if c = '\n' then ['\\', 'n']
  else if c = '\r' then ['\\', 'r']
  else if c = '\t' then ['\\', 't']
  else if c = Char.ofNat 8 then ['\\', 'b']
  else if c = Char.ofNat 12 then ['\\', 'f']
  else if c.toNat < 32 then
    ['\\', 'u', '0', '0', hexDigitChar (c.toNat / 16), hexDigitChar (c.toNat % 16)]
  else [c]

/-- JSON string literal (including the surrounding quotes) for a string. -/
def encStrLit (s : String) : List Char :=
  '"' :: s.data.flatMap escC ++ ['"']

/-- Comma-separated JSON string literals for a non-empty item list. -/
def encItems : List String → List Char
  | [] => []
  | [s] => encStrLit s
  | s :: rest => encStrLit s ++ ',' :: encItems rest

/-- Characters of `JSON.stringify` applied to a `string[]` value. -/
def encArr (l : List String) : List Char :=
  '[' :: encItems l ++ [']']

/-- Model of `JSON.stringify` on a `string[]` value. -/
def jsonStringify (l : List String) : String := ⟨encArr l⟩

/-- Model of `JSON.stringify` on a plain string value. -/
def jsonStringifyStr (s : String) : String := ⟨encStrLit s⟩

/-- Body of a JSON string literal: the opening `"` has been consumed, `acc`
holds the decoded characters in reverse.  Returns the decoded string and the
characters following the closing quote. -/
def parseStrBody (acc : List Char) : List Char → Option (String × List Char)
  | [] => none
  | c :: rest =>
    if c = '"' then some (⟨acc.reverse⟩, rest)
    else if c = '\\' then
      match rest with
      | [] => none
      | e :: r =>
        if e = '"' || e = '\\' || e = '/' then parseStrBody (e :: acc) r
        else if e = 'n' then parseStrBody ('\n' :: acc) r
        else if e = 'r' then parseStrBody ('\r' :: acc) r
        else if e = 't' then parseStrBody ('\t' :: acc) r
        else if e = 'b' then parseStrBody (Char.ofNat 8 :: acc) r
        else if e = 'f' then parseStrBody (Char.ofNat 12 :: acc) r
        else if e = 'u' then
          match r with
          | h1 :: h2 :: h3 :: h4 :: r2 =>
            match hexVal? h1, hexVal? h2, hexVal? h3, hexVal? h4 with
            | some a, some b, some c3, some d =>
              let n := a * 4096 + b * 256 + c3 * 16 + d
              if n < 55296 then parseStrBody (Char.ofNat n :: acc) r2 else none
            | _, _, _, _ => none
          | _ => none
        else none
    else parseStrBody (c :: acc) rest

/-- JSON string literal parser: expects a leading `"`. -/
def parseStrLit : List Char → Option (String × List Char)
  | [] => none
  | c :: rest => if c = '"' then parseStrBody [] rest else none

/-- Items of a JSON array of strings, after the opening `[`, known to be
non-empty.  `fuel` bounds the number of items (any bound suffices). -/
def parseItemsF : Nat → List Char → Option (List String × List Char)
  | 0, _ => none
  | fuel + 1, l =>
    match parseStrLit l with
    | none => none
    | some (s, rest) =>
      match rest with
      | ',' :: r =>
        match parseItemsF fuel r with
        | some (ss, r2) => some (s :: ss, r2)
        | none => none
      | ']' :: r => some ([s], r)
      | _ => none

/-- JSON values in the fragment stored by this application. -/
inductive JsonVal : Type where
  | arr (xs : List String)
  | str (s : String)
  | num (txt : String)
  | boolean (b : Bool)
  | nul
  deriving DecidableEq

/-- Maximal run of decimal digits. -/
def takeDigits (l : List Char) : List Char × List Char :=
  (l.takeWhile Char.isDigit, l.dropWhile Char.isDigit)

/-- JSON number literal; returns its source text (which is also the result of
JavaScript `String(...)` on the parsed number for the canonical literals this
development evaluates). -/
def parseNumber (l : List Char) : Option (String × List Char) :=
  let (neg, l1) := match l with
    | '-' :: r => (['-'], r)
    | _ => (([] : List Char), l)
  let (intPart, l2) := takeDigits l1
  if intPart = [] then none
  else
    let (fracPart, l3) := match l2 with
      | '.' :: r =>
        let (d, r2) := takeDigits r
        if d = [] then (([] : List Char), l2) else ('.' :: d, r2)
      | _ => (([] : List Char), l2)
    some (⟨neg ++ intPart ++ fracPart⟩, l3)

/-- `JSON.parse` on the fragment described above.  The whole input must be
consumed (no trailing characters). -/
def parseJsonValue : List Char → Option JsonVal
  | '[' :: rest =>
    match rest with
    | [] => none
    | c :: r =>
      if c = ']' then (if r = [] then some (.arr []) else none)
      else
        match parseItemsF (c :: r).length (c :: r) with
        | some (ss, r2) => if r2 = [] then some (.arr ss) else none
        | none => none
  | '"' :: rest =>
    match parseStrBody [] rest with
    | some (s, r) => if r = [] then some (.str s) else none
    | none => none
  | 't' :: rest => if rest = ['r', 'u', 'e'] then some (.boolean true) else none
  | 'f' :: rest => if rest = ['a', 'l', 's', 'e'] then some (.boolean false) else none
  | 'n' :: rest => if rest = ['u', 'l', 'l'] then some (.nul) else none
  | l =>
    match parseNumber l with
    | some (t, r) => if r = [] then some (.num t) else none
    | none => none

/-! ## The storage layer's defensive array decoder

`parseArray` in `DatabaseStorage.getConvention` / `getAllConventions`
(`server/storage.ts`): a stored column value may be `null` (→ `[]`), a JSON
array string, a JSON scalar, a comma-separated string, or a bare scalar
string.  The column type is `text`, so the `Array.isArray` and non-string
branches of the source are unreachable and not modelled. -/

/-- Model of the `parseArray` helper applied to a nullable text column. -/
def parseArrayOpt (val : Option String) : List String :=
  match val with
  | none => []
  | some s0 =>
    if s0.data = [] then []
    else
      let t := jsTrimChars s0.data
      if t = [] then []
      else
        match parseJsonValue t with
        | some (.arr xs) => xs
        | some (.str v) => [v]
        | some (.num txt) => [txt]
        | some (.boolean b) => [if b then "true" else "false"]
        | some .nul => ["null"]
        | none =>
          if t.contains ',' then
            ((splitOnChar ',' t).map (fun p => (⟨jsTrimChars p⟩ : String))).filter
              (fun p => !(p == ""))
          else [(⟨t⟩ : String)]

/-! ## Users, credentials and sessions (`shared/schema.ts`, `server/auth.ts`) -/

/-- A row of the `users` table.  `createdAt` timestamps are opaque numbers. -/
structure UserR where
  id : String
  username : String
  password : String
  role : String
  firstName : Option String
  lastName : Option String
  email : Option String
  profileImageUrl : Option String
  isActive : String
  createdAt : Nat
  deriving DecidableEq

/-- The `UserRole` constants of `shared/schema.ts`. -/
def UserRole.ADMIN : String := "admin"

/-- The `UserRole` constants of `shared/schema.ts`. -/
def UserRole.EDITOR : String := "editor"

/-- The `UserRole` constants of `shared/schema.ts`. -/
def UserRole.VIEWER : String := "viewer"

/-- `storage.getUser`: select the user row with the given id. -/
def getUserById (users : List UserR) (uid : String) : Option UserR :=
  users.find? (fun u => u.id == uid)

/-- `storage.getUserByUsername`. -/
def getUserByUsername (users : List UserR) (username : String) : Option UserR :=
  users.find? (fun u => u.username == username)

/-- `storage.validateUser` (`server/storage.ts`): look the user up by exact
username, fail if absent or not active, then compare the password with the
stored bcrypt hash.  `compare` abstracts `bcrypt.compare`. -/
def validateUser (users : List UserR) (compare : String → String → Bool)
    (username password : String) : Option UserR :=
  match getUserByUsername users username with
  | none => none
  | some u =>
    if u.isActive ≠ "true" then none
    else if compare password u.password then some u else none

/-- Result of the `requireAuth` middleware for one request. -/
inductive AuthOutcome : Type where
  | unauthenticated
  | ok (u : UserR)
  deriving DecidableEq

/-- `requireAuth` (`server/auth.ts`): a request carries an optional session
binding (`req.session.userId`; `none` models both a missing and an expired
session, which the session store reports identically).  If the bound user no
longer exists or is not active, the session is destroyed
(`req.session.destroy`) and the request fails with 401.  Returns the outcome
together with the session binding left behind for subsequent requests. -/
def requireAuthStep (users : List UserR) (sess : Option String) :
    AuthOutcome × Option String :=
  match sess with
  | none => (.unauthenticated, none)
  | some uid =>
    match getUserById users uid with
    | none => (.unauthenticated, none)
    | some u => if u.isActive ≠ "true" then (.unauthenticated, none) else (.ok u, some uid)

/-- A handler guarded by `requireAuth`: the handler body (modelled as an
arbitrary function of the attached principal, returning an HTTP status) runs
only when `requireAuth` calls `next()`. -/
def runProtected (users : List UserR) (sess : Option String)
    (handler : UserR → Nat) : Nat × Option String :=
  match requireAuthStep users sess with
  | (.unauthenticated, s1) => (401, s1)
  | (.ok u, s1) => (handler u, s1)

/-! ## The route table and role middleware (`server/routes.ts`) -/

/-- The API routes registered by `registerRoutes` that are guarded by
`requireAuth` (all of them, beyond login/logout). -/
inductive Route : Type where
  | authUser
  | usersList | usersCreate | usersUpdate | usersDelete
  | conventionsList | conventionsStats | conventionsSearch | conventionGet
  | conventionCreate | conventionUpdate | conventionDelete
  | conventionDownload | exportExcel
  | statsBySector | statsByStatus | statsBySectorCost | statsByDomain
  | statsByProvince | statsByYear | statsByProgramme
  | fcList | fcCreate | fcUpdate | fcDelete
  | uploadPost | uploadDelete
  deriving DecidableEq

/-- The `requireRole` allow-list attached to each route in
`server/routes.ts`; `none` for routes that mount no `requireRole`
middleware. -/
def routeRoles : Route → Option (List String)
  | .usersList => some [UserRole.ADMIN]
  | .usersCreate => some [UserRole.ADMIN]
  | .usersUpdate => some [UserRole.ADMIN]
  | .usersDelete => some [UserRole.ADMIN]
  | .conventionCreate => some [UserRole.ADMIN, UserRole.EDITOR]
  | .conventionUpdate => some [UserRole.ADMIN, UserRole.EDITOR]
  | .conventionDelete => some [UserRole.ADMIN, UserRole.EDITOR]
  | .fcCreate => some [UserRole.ADMIN, UserRole.EDITOR]
  | .fcUpdate => some [UserRole.ADMIN, UserRole.EDITOR]
  | .fcDelete => some [UserRole.ADMIN, UserRole.EDITOR]
  | .uploadDelete => some [UserRole.ADMIN, UserRole.EDITOR]
  | _ => none

/-- `requireRole` (`server/auth.ts`) for an attached principal: passes when
the route mounts no role middleware, or when the principal's role is in the
route's allow-list; otherwise the request ends with 403. -/
def routePermits (u : UserR) (rt : Route) : Bool :=
  match routeRoles rt with
  | none => true
  | some allowed => allowed.contains u.role

/-! ## User-facing serializations (`server/routes.ts`)

Each read path builds a fresh object from an explicit field list; these
structures are those field lists. -/

/-- Shape of the `user` object in the `POST /api/auth/login` and
`GET /api/auth/user` responses. -/
structure PublicUser where
  id : String
  username : String
  role : String
  firstName : Option String
  lastName : Option String
  email : Option String
  deriving DecidableEq

/-- Shape of each entry of the `GET /api/users` response. -/
structure SafeUser where
  id : String
  username : String
  role : String
  firstName : Option String
  lastName : Option String
  email : Option String
  isActive : String
  createdAt : Nat
  deriving DecidableEq

/-- Shape of the `POST /api/users` and `PUT /api/users/:id` responses. -/
structure CreatedUserView where
  id : String
  username : String
  role : String
  firstName : Option String
  lastName : Option String
  email : Option String
  isActive : String
  deriving DecidableEq

/-- The login response body (`routes.ts`, `POST /api/auth/login`). -/
def loginView (u : UserR) : PublicUser :=
  ⟨u.id, u.username, u.role, u.firstName, u.lastName, u.email⟩

/-- The current-principal response body (`routes.ts`, `GET /api/auth/user`). -/
def authUserView (u : UserR) : PublicUser :=
  ⟨u.id, u.username, u.role, u.firstName, u.lastName, u.email⟩

/-- One `safeUsers` entry (`routes.ts`, `GET /api/users`). -/
def safeUserView (u : UserR) : SafeUser :=
  ⟨u.id, u.username, u.role, u.firstName, u.lastName, u.email, u.isActive, u.createdAt⟩

/-- The created-user response body (`routes.ts`, `POST /api/users`). -/
def createUserView (u : UserR) : CreatedUserView :=
  ⟨u.id, u.username, u.role, u.firstName, u.lastName, u.email, u.isActive⟩

/-- The updated-user response body (`routes.ts`, `PUT /api/users/:id`). -/
def updateUserView (u : UserR) : CreatedUserView :=
  ⟨u.id, u.username, u.role, u.firstName, u.lastName, u.email, u.isActive⟩

/-! ## `DELETE /api/users/:id` (`server/routes.ts`) -/

/-- The whole middleware-plus-handler pipeline of `DELETE /api/users/:id`:
`requireAuth`, `requireRole([ADMIN])`, the self-delete guard, then
`storage.deleteUser`.  Returns the HTTP status and the users table
afterwards. -/
def deleteUserPipeline (users : List UserR) (sess : Option String)
    (targetId : String) : Nat × List UserR :=
  match requireAuthStep users sess with
  | (.unauthenticated, _) => (401, users)
  | (.ok u, _) =>
    if !(routePermits u .usersDelete) then (403, users)
    else if targetId = u.id then (400, users)
    else if users.any (fun x => x.id == targetId) then
      (200, users.filter (fun x => !(x.id == targetId)))
    else (404, users)

/-! ## Convention rows and the storage operations (`server/storage.ts`) -/

/-- A row of the `conventions` table, in stored (encoded) form.  The
multi-valued columns are nullable text holding serialized values. -/
structure ConvRow where
  id : Nat
  conventionNumber : String
  date : String
  description : String
  status : String
  year : String
  session : String
  domain : String
  sector : String
  decisionNumber : String
  contractor : String
  amount : Option String
  contribution : Option String
  province : Option String
  partners : Option String
  attachments : Option String
  programme : Option String
  executionType : Option String
  delegatedProjectOwner : Option String
  validity : Option String
  jurisdiction : Option String
  createdBy : Option String
  deriving DecidableEq

/-- A Convention as returned to API callers: the four multi-valued columns
decoded to string lists by `parseArray`. -/
structure ConventionOut where
  id : Nat
  conventionNumber : String
  date : String
  description : String
  status : String
  year : String
  session : String
  domain : String
  sector : String
  decisionNumber : String
  contractor : String
  amount : Option String
  contribution : Option String
  province : List String
  partners : List String
  attachments : List String
  programme : Option String
  executionType : Option String
  delegatedProjectOwner : List String
  validity : Option String
  jurisdiction : Option String
  createdBy : Option String
  deriving DecidableEq

/-- The read-side decoding applied by `getConvention` and
`getAllConventions` to a fetched row. -/
def decodeRow (r : ConvRow) : ConventionOut :=
  { id := r.id
    conventionNumber := r.conventionNumber
    date := r.date
    description := r.description
    status := r.status
    year := r.year
    session := r.session
    domain := r.domain
    sector := r.sector
    decisionNumber := r.decisionNumber
    contractor := r.contractor
    amount := r.amount
    contribution := r.contribution
    province := parseArrayOpt r.province
    partners := parseArrayOpt r.partners
    attachments := parseArrayOpt r.attachments
    programme := r.programme
    executionType := r.executionType
    delegatedProjectOwner := parseArrayOpt r.delegatedProjectOwner
    validity := r.validity
    jurisdiction := r.jurisdiction
    createdBy := r.createdBy }

/-- The payload accepted by `POST /api/conventions` after
`insertConventionSchema` validation (`shared/schema.ts`): required text
fields, optional money fields (which may still be the empty string), and
optional string-list fields.  `delegatedProjectOwner` is a plain optional
string in the schema. -/
structure InsertConvention where
  conventionNumber : String
  date : String
  description : String
  status : String
  year : String
  session : String
  domain : String
  sector : String
  decisionNumber : String
  contractor : String
  amount : Option String
  contribution : Option String
  province : Option (List String)
  partners : Option (List String)
  attachments : Option (List String)
  programme : Option String
  executionType : Option String
  delegatedProjectOwner : Option String
  validity : Option String
  jurisdiction : Option String
  deriving DecidableEq

/-- The payload accepted by `PUT /api/conventions/:id` after
`insertConventionSchema.partial()` validation: every field optional
(`none` models an absent key). -/
structure UpdateConvention where
  conventionNumber : Option String
  date : Option String
  description : Option String
  status : Option String
  year : Option String
  session : Option String
  domain : Option String
  sector : Option String
  decisionNumber : Option String
  contractor : Option String
  amount : Option String
  contribution : Option String
  province : Option (List String)
  partners : Option (List String)
  attachments : Option (List String)
  programme : Option String
  executionType : Option String
  delegatedProjectOwner : Option String
  validity : Option String
  jurisdiction : Option String
  deriving DecidableEq

/-- The `conventions` table plus its serial-id counter. -/
structure Store where
  rows : List ConvRow
  nextId : Nat
  deriving DecidableEq

/-- The money-field normalization of `createConvention`/`updateConvention`:
`undefined`, `null` and `""` all store SQL `NULL`; anything else is stored
as its string form. -/
def normMoney : Option String → Option String
  | some v => if v = "" then none else some v
  | none => none

/-- The `values({...})` object built by `storage.createConvention`: money
fields normalized, list fields `JSON.stringify`-ed when present (an empty
array is truthy in JavaScript and is therefore encoded, not nulled), the
optional scalar `delegatedProjectOwner` stringified when truthy. -/
def createConventionRow (d : InsertConvention) (createdBy : String) (id : Nat) : ConvRow :=
  { id := id
    conventionNumber := d.conventionNumber
    date := d.date
    description := d.description
    status := d.status
    year := d.year
    session := d.session
    domain := d.domain
    sector := d.sector
    decisionNumber := d.decisionNumber
    contractor := d.contractor
    amount := normMoney d.amount
    contribution := normMoney d.contribution
    province := d.province.map jsonStringify
    partners := d.partners.map jsonStringify
    attachments := d.attachments.map jsonStringify
    programme := d.programme
    executionType := d.executionType
    delegatedProjectOwner :=
      match d.delegatedProjectOwner with
      | some s => if s = "" then none else some (jsonStringifyStr s)
      | none => none
    validity := d.validity
    jurisdiction := d.jurisdiction
    createdBy := some createdBy }

/-- `storage.createConvention`: insert the encoded row with a fresh serial
id.  Returns the new id and the new store.  (The HTTP response body echoes
the row decoded with bare `JSON.parse`; no claim depends on that echo, so it
is not modelled.) -/
def createConvention (d : InsertConvention) (createdBy : String) (st : Store) :
    Nat × Store :=
  (st.nextId, ⟨st.rows ++ [createConventionRow d createdBy st.nextId], st.nextId + 1⟩)

/-- `storage.getConvention`: select by id and decode. -/
def getConvention (st : Store) (id : Nat) : Option ConventionOut :=
  (st.rows.find? (fun r => r.id == id)).map decodeRow

/-- The `set({...})` object built by `storage.updateConvention`: fields of
the update payload replace the stored ones where present (`...updateData`),
and the six explicitly-listed fields are recomputed unconditionally — an
omitted or falsy money field, list field or `delegatedProjectOwner` writes
SQL `NULL` over the previous value. -/
def applyUpdateSet (u : UpdateConvention) (r : ConvRow) : ConvRow :=
  { id := r.id
    conventionNumber := u.conventionNumber.getD r.conventionNumber
    date := u.date.getD r.date
    description := u.description.getD r.description
    status := u.status.getD r.status
    year := u.year.getD r.year
    session := u.session.getD r.session
    domain := u.domain.getD r.domain
    sector := u.sector.getD r.sector
    decisionNumber := u.decisionNumber.getD r.decisionNumber
    contractor := u.contractor.getD r.contractor
    amount := normMoney u.amount
    contribution := normMoney u.contribution
    province := u.province.map jsonStringify
    partners := u.partners.map jsonStringify
    attachments := u.attachments.map jsonStringify
    programme := match u.programme with | some v => some v | none => r.programme
    executionType := match u.executionType with | some v => some v | none => r.executionType
    delegatedProjectOwner :=
      match u.delegatedProjectOwner with
      | some s => if s = "" then none else some (jsonStringifyStr s)
      | none => none
    validity := match u.validity with | some v => some v | none => r.validity
    jurisdiction := match u.jurisdiction with | some v => some v | none => r.jurisdiction
    createdBy := r.createdBy }

/-- `storage.updateConvention`: update the row with the given id (if any)
with the `set` clause above.  Returns the updated stored row (if a row
matched) and the new store.  (The response echo decodes with bare
`JSON.parse`; no claim depends on it.) -/
def updateConvention (st : Store) (id : Nat) (u : UpdateConvention) :
    Option ConvRow × Store :=
  ((st.rows.find? (fun r => r.id == id)).map (applyUpdateSet u),
   ⟨st.rows.map (fun r => if r.id == id then applyUpdateSet u r else r), st.nextId⟩)

/-! ## The list ordering of `getAllConventions` (`server/storage.ts`)

The SQL `ORDER BY` clauses are
`NULLIF(split_part(convention_number, '/', 2), '')::int DESC` and then the
same with field 1.  Postgres semantics modelled here: `split_part` yields
`''` when the field is absent; `NULLIF(x, '')` turns `''` into SQL `NULL`;
casting a non-empty string that is not an optionally-signed decimal integer
within the 32-bit `int4` range (surrounding `isspace` whitespace allowed)
raises an error, failing the whole query;
`DESC` ordering puts `NULL` keys first (`NULLS FIRST` is the Postgres
default for descending keys).  `NULL` is therefore modelled as `⊤` in
`WithTop Int` and the comparison is descending. -/

/-- Postgres `split_part(s, '/', n)` (1-based; `''` when absent). -/
def splitPartSlash (s : String) (n : Nat) : String :=
  ⟨(splitOnChar '/' s.data).getD (n - 1) []⟩

/-- Decimal value of a digit list. -/
def digitsVal (l : List Char) : Nat :=
  l.foldl (fun a c => a * 10 + (c.toNat - 48)) 0

/-- Postgres `::int` (int4) cast of a text value: optionally-signed decimal
digits with surrounding `isspace` whitespace, range-checked against the
32-bit integer range; anything else — including an out-of-range value —
raises (modelled as `none`). -/
def pgCastInt (s : String) : Option Int :=
  let t := pgTrimChars s.data
  match t with
  | '-' :: r =>
    if r ≠ [] ∧ r.all Char.isDigit ∧ digitsVal r ≤ 2147483648 then
      some (-(digitsVal r : Int))
    else none
  | '+' :: r =>
    if r ≠ [] ∧ r.all Char.isDigit ∧ digitsVal r ≤ 2147483647 then
      some (digitsVal r)
    else none
  | _ =>
    if t ≠ [] ∧ t.all Char.isDigit ∧ digitsVal t ≤ 2147483647 then
      some (digitsVal t)
    else none

/-- `NULLIF(part, '')::int` as a sort key: `''` becomes `NULL` (here `⊤`),
an unparseable non-empty part fails the query (`none`). -/
def sortKeyPart (p : String) : Option (WithTop Int) :=
  if p = "" then some ⊤ else (pgCastInt p).map (fun z => (z : WithTop Int))

/-- The two-component sort key of a `conventionNumber`; `none` when the
query would raise. -/
def sortKeyE (number : String) : Option (WithTop Int × WithTop Int) :=
  match sortKeyPart (splitPartSlash number 2), sortKeyPart (splitPartSlash number 1) with
  | some k2, some k1 => some (k2, k1)
  | _, _ => none

/-- `a` may come no later than `b` under
`ORDER BY year DESC NULLS FIRST, seq DESC NULLS FIRST`. -/
def keyLe (a b : WithTop Int × WithTop Int) : Prop :=
  b.1 < a.1 ∨ (a.1 = b.1 ∧ b.2 ≤ a.2)

instance : DecidableRel keyLe := fun a b =>
  inferInstanceAs (Decidable (b.1 < a.1 ∨ (a.1 = b.1 ∧ b.2 ≤ a.2)))

/-- The row ordering induced by the sort keys. -/
def rowLe (a b : (WithTop Int × WithTop Int) × ConvRow) : Prop :=
  keyLe a.1 b.1

instance : DecidableRel rowLe := fun a b =>
  inferInstanceAs (Decidable (keyLe a.1 b.1))

/-- Evaluate the sort key of every row, failing the whole query on the first
row whose `conventionNumber` has a non-empty component that does not cast to
an integer. -/
def keyRows : List ConvRow → Except Unit (List ((WithTop Int × WithTop Int) × ConvRow))
  | [] => .ok []
  | r :: rest =>
    match sortKeyE r.conventionNumber with
    | none => .error ()
    | some k =>
      match keyRows rest with
      | .ok ks => .ok ((k, r) :: ks)
      | .error e => .error e

/-- `storage.getAllConventions`: key every row, sort descending by year then
sequence with `NULL` keys first, and decode each row.  The sort is a stable
realization of the Postgres `ORDER BY`, which leaves tie order
unspecified. -/
def getAllConventions (st : Store) : Except Unit (List ConventionOut) :=
  match keyRows st.rows with
  | .error e => .error e
  | .ok keyed => .ok ((List.insertionSort rowLe keyed).map (fun kr => decodeRow kr.2))

/-- The ordering claimed of the decoded output list: whenever both sort keys
exist, the earlier element's key is no later under the descending
NULLS-FIRST order. -/
def outKeyLe (a b : ConventionOut) : Prop :=
  ∀ ka kb, sortKeyE a.conventionNumber = some ka → sortKeyE b.conventionNumber = some kb →
    keyLe ka kb

/-! ## Convention id parsing on the routes (`server/routes.ts`) -/

/-- Hexadecimal value of a hex-digit list. -/
def hexDigitsVal (l : List Char) : Nat :=
  l.foldl (fun a c => a * 16 + ((hexVal? c).getD 0)) 0

/-- Signed integer from a magnitude. -/
def intSign (neg : Bool) (n : Nat) : Int :=
  if neg then -(n : Int) else n

/-- Final step of `parseInt`: fail on an empty digit run, otherwise value
the run in the chosen radix with the recorded sign. -/
def jsParseDigits (ds : List Char) (hex : Bool) (neg : Bool) : Option Int :=
  if ds = [] then none
  else some (intSign neg (if hex then hexDigitsVal ds else digitsVal ds))

/-- `parseInt` after sign handling: `0x`/`0X` switches to hexadecimal,
otherwise the maximal decimal digit run is taken. -/
def jsParseIntCore (t1 : List Char) (neg : Bool) : Option Int :=
  if t1.head? = some '0' ∧ (t1.tail.head? = some 'x' ∨ t1.tail.head? = some 'X') then
    jsParseDigits (t1.tail.tail.takeWhile (fun c => (hexVal? c).isSome)) true neg
  else
    jsParseDigits (t1.takeWhile Char.isDigit) false neg

/-- JavaScript `parseInt(s)` with no radix argument: skip leading
whitespace, optional sign, `0x`/`0X` switches to hexadecimal, then the
maximal digit run; `none` models `NaN` (no digits). -/
def jsParseInt (s : String) : Option Int :=
  jsParseIntCore
    (if (s.data.dropWhile isWs).head? = some '-' ∨ (s.data.dropWhile isWs).head? = some '+'
      then (s.data.dropWhile isWs).tail
      else s.data.dropWhile isWs)
    (decide ((s.data.dropWhile isWs).head? = some '-'))

/-- What a convention-id handler does with its `:id` parameter before any
other work: either it answers 400 without calling the storage layer, or it
calls the storage layer with the parsed id. -/
inductive IdGate : Type where
  | invalidArgument
  | storeLookup (n : Int)
  deriving DecidableEq

/-- The `parseInt` + `isNaN` prologue shared by `GET`, `PUT` and `DELETE`
`/api/conventions/:id`. -/
def conventionIdGate (idParam : String) : IdGate :=
  match jsParseInt idParam with
  | none => .invalidArgument
  | some n => .storeLookup n

/-- What `GET /api/conventions/:id/download` does with `:id`: there is no
`isNaN` check, so the storage lookup always runs — with `NaN` when the
parameter does not parse. -/
inductive DownloadGate : Type where
  | storeLookupNaN
  | storeLookup (n : Int)
  deriving DecidableEq

/-- The `:id` prologue of the download route (`routes.ts`). -/
def downloadConventionGate (idParam : String) : DownloadGate :=
  match jsParseInt idParam with
  | none => .storeLookupNaN
  | some n => .storeLookup n

/-! ## Upload error dispatch (`server/routes.ts`, `server/upload.ts`) -/

/-- A JavaScript error as inspected by the upload route's error callback:
its `name` and its optional Multer `code`. -/
structure JsError where
  name : String
  code : Option String
  deriving DecidableEq

/-- The MIME allow-list of `fileFilter` in `server/upload.ts`. -/
def allowedTypes : List String :=
  ["application/pdf",
   "application/msword",
   "application/vnd.openxmlformats-officedocument.wordprocessingml.document",
   "application/vnd.ms-excel",
   "application/vnd.openxmlformats-officedocument.spreadsheetml.sheet",
   "image/jpeg",
   "image/png",
   "image/gif"]

/-- `fileFilter`: accept allow-listed MIME types (`none`), otherwise pass a
plain `Error` (name `"Error"`, no Multer code) to the upload callback. -/
def fileFilterCheck (mimetype : String) : Option JsError :=
  if allowedTypes.contains mimetype then none
  else some ⟨"Error", none⟩

/-- Multer's own limit errors carry name `"MulterError"` and a code; the
`fileSize` limit configured in `server/upload.ts` raises this one for an
oversized file. -/
def multerFileSizeErr : JsError := ⟨"MulterError", some "LIMIT_FILE_SIZE"⟩

/-- The error this route's multer stack passes to the callback when a sixth
file arrives: `upload.array('files', 5)` enforces its `maxCount` argument by
raising `MulterError('LIMIT_UNEXPECTED_FILE')` for the file beyond the
count.  (`limits.files` is not configured on this route, so the busboy-level
`LIMIT_FILE_COUNT` error is never produced here; the dispatcher's branch for
it is dead code on this route.) -/
def multerTooManyFilesErr : JsError := ⟨"MulterError", some "LIMIT_UNEXPECTED_FILE"⟩

/-- An upload error response: HTTP status and the `error` code field of the
JSON body (`none` when the body carries no code). -/
structure UploadResponse where
  status : Nat
  errorCode : Option String
  deriving DecidableEq

/-- The error dispatcher wrapped around `upload.array('files', 5)` in
`POST /api/upload` (`routes.ts`): `LIMIT_FILE_SIZE` and the named
`MulterError` codes get 400 responses with distinguishing codes; any other
error — including the plain `Error` produced by `fileFilter` for a
disallowed MIME type — falls through to a generic 500 with no code. -/
def uploadErrorResponse (err : JsError) : UploadResponse :=
  if err.code = some "LIMIT_FILE_SIZE" then ⟨400, some "FILE_TOO_LARGE"⟩
  else if err.name = "MulterError" then
    match err.code with
    | some "LIMIT_FILE_COUNT" => ⟨400, some "TOO_MANY_FILES"⟩
    | some "LIMIT_UNEXPECTED_FILE" => ⟨400, some "UNEXPECTED_FILE"⟩
    | _ => ⟨400, some "UPLOAD_ERROR"⟩
  else ⟨500, none⟩

/-! ## Concrete sample data for counterexamples and witnesses -/

/-- A viewer principal. -/
def viewerU : UserR :=
  { id := "v1", username := "v", password := "hv", role := "viewer",
    firstName := none, lastName := none, email := none, profileImageUrl := none,
    isActive := "true", createdAt := 0 }

/-- An editor principal. -/
def editorU : UserR :=
  { id := "e1", username := "e", password := "he", role := "editor",
    firstName := none, lastName := none, email := none, profileImageUrl := none,
    isActive := "true", createdAt := 0 }

/-- An admin principal. -/
def adminU : UserR :=
  { id := "a1", username := "a", password := "ha", role := "admin",
    firstName := none, lastName := none, email := none, profileImageUrl := none,
    isActive := "true", createdAt := 0 }

/-- A deactivated user. -/
def inactiveU : UserR :=
  { id := "i1", username := "i", password := "hi", role := "viewer",
    firstName := none, lastName := none, email := none, profileImageUrl := none,
    isActive := "false", createdAt := 0 }

/-- An empty conventions table. -/
def emptyStore : Store := ⟨[], 1⟩

/-- A convention row with the given id and number and fixed filler fields. -/
def mkRow (id : Nat) (num : String) : ConvRow :=
  { id := id, conventionNumber := num, date := "2024-01-01", description := "d",
    status := "s", year := "2024", session := "1", domain := "dom", sector := "sec",
    decisionNumber := "1", contractor := "c", amount := none, contribution := none,
    province := none, partners := none, attachments := none, programme := none,
    executionType := none, delegatedProjectOwner := none, validity := none,
    jurisdiction := none, createdBy := none }

/-- Store holding a parseable number and a number with no slash. -/
def storeNoSlash : Store := ⟨[mkRow 1 "1/2024", mkRow 2 "5"], 3⟩

/-- Store holding a number whose sequence component is not an integer. -/
def storeBadNum : Store := ⟨[mkRow 1 "abc/1"], 2⟩

/-- A creation payload with the round-trip example lists of the claim. -/
def sampleInsert : InsertConvention :=
  { conventionNumber := "10/2024", date := "2024-01-01", description := "x",
    status := "s", year := "2024", session := "1", domain := "d", sector := "sec",
    decisionNumber := "1", contractor := "c", amount := some "100",
    contribution := none, province := some ["A", "B"], partners := some ["X"],
    attachments := none, programme := none, executionType := none,
    delegatedProjectOwner := none, validity := none, jurisdiction := none }

/-- The all-absent partial update payload. -/
def updNone : UpdateConvention :=
  { conventionNumber := none, date := none, description := none, status := none,
    year := none, session := none, domain := none, sector := none,
    decisionNumber := none, contractor := none, amount := none, contribution := none,
    province := none, partners := none, attachments := none, programme := none,
    executionType := none, delegatedProjectOwner := none, validity := none,
    jurisdiction := none }

/-- A partial update passing an empty list for `province` and nothing else. -/
def updEmptyProvince : UpdateConvention := { updNone with province := some [] }

/-- A stored row whose `province` column holds the encoded list `["A"]`. -/
def rowWithProvince : ConvRow := { mkRow 7 "2/2024" with province := some "[\"A\"]" }

/-! # Proofs

## Inversion of the JSON codec -/

theorem char_ofNat_toNat (c : Char) : Char.ofNat c.toNat = c := by
  rcases c with ⟨v, h⟩
  simp only [Char.ofNat, Char.toNat]
  rw [dif_pos h]
  apply Char.ext
  simp [Char.ofNatAux, UInt32.ofNat']
  apply UInt32.eq_of_toBitVec_eq
  simp [BitVec.ofNat_toNat]
  exact BitVec.setWidth_eq v.toBitVec

theorem hexVal_hexDigitChar : ∀ m < 16, hexVal? (hexDigitChar m) = some m := by decide

theorem parseStrBody_quote (acc rest : List Char) :
    parseStrBody acc ('"' :: rest) = some (⟨acc.reverse⟩, rest) := by
  rw [parseStrBody.eq_def]
  simp only [Char.reduceEq, reduceIte, decide_False, decide_True, Bool.or_self, Bool.or_false,
    Bool.false_or, Bool.true_or, Bool.or_true, Bool.false_eq_true, Bool.true_eq_false,
    if_false, if_true]

theorem parseStrBody_escQuote (acc rest : List Char) :
    parseStrBody acc ('\\' :: '"' :: rest) = parseStrBody ('"' :: acc) rest := by
  rw [parseStrBody.eq_def]
  simp only [Char.reduceEq, reduceIte, decide_False, decide_True, Bool.or_self, Bool.or_false,
    Bool.false_or, Bool.true_or, Bool.or_true, Bool.false_eq_true, Bool.true_eq_false,
    if_false, if_true]

theorem parseStrBody_escBackslash (acc rest : List Char) :
    parseStrBody acc ('\\' :: '\\' :: rest) = parseStrBody ('\\' :: acc) rest := by
  rw [parseStrBody.eq_def]
  simp only [Char.reduceEq, reduceIte, decide_False, decide_True, Bool.or_self, Bool.or_false,
    Bool.false_or, Bool.true_or, Bool.or_true, Bool.false_eq_true, Bool.true_eq_false,
    if_false, if_true]

theorem parseStrBody_escN (acc rest : List Char) :
    parseStrBody acc ('\\' :: 'n' :: rest) = parseStrBody ('\n' :: acc) rest := by
  rw [parseStrBody.eq_def]
  simp only [Char.reduceEq, reduceIte, decide_False, decide_True, Bool.or_self, Bool.or_false,
    Bool.false_or, Bool.true_or, Bool.or_true, Bool.false_eq_true, Bool.true_eq_false,
    if_false, if_true]

theorem parseStrBody_escR (acc rest : List Char) :
    parseStrBody acc ('\\' :: 'r' :: rest) = parseStrBody ('\r' :: acc) rest := by
  rw [parseStrBody.eq_def]
  simp only [Char.reduceEq, reduceIte, decide_False, decide_True, Bool.or_self, Bool.or_false,
    Bool.false_or, Bool.true_or, Bool.or_true, Bool.false_eq_true, Bool.true_eq_false,
    if_false, if_true]

theorem parseStrBody_escT (acc rest : List Char) :
    parseStrBody acc ('\\' :: 't' :: rest) = parseStrBody ('\t' :: acc) rest := by
  rw [parseStrBody.eq_def]
  simp only [Char.reduceEq, reduceIte, decide_False, decide_True, Bool.or_self, Bool.or_false,
    Bool.false_or, Bool.true_or, Bool.or_true, Bool.false_eq_true, Bool.true_eq_false,
    if_false, if_true]

theorem parseStrBody_escB (acc rest : List Char) :
    parseStrBody acc ('\\' :: 'b' :: rest) = parseStrBody (Char.ofNat 8 :: acc) rest := by
  rw [parseStrBody.eq_def]
  simp only [Char.reduceEq, reduceIte, decide_False, decide_True, Bool.or_self, Bool.or_false,
    Bool.false_or, Bool.true_or, Bool.or_true, Bool.false_eq_true, Bool.true_eq_false,
    if_false, if_true]

theorem parseStrBody_escF (acc rest : List Char) :
    parseStrBody acc ('\\' :: 'f' :: rest) = parseStrBody (Char.ofNat 12 :: acc) rest := by
  rw [parseStrBody.eq_def]
  simp only [Char.reduceEq, reduceIte, decide_False, decide_True, Bool.or_self, Bool.or_false,
    Bool.false_or, Bool.true_or, Bool.or_true, Bool.false_eq_true, Bool.true_eq_false,
    if_false, if_true]

theorem parseStrBody_escU (acc : List Char) (d1 d2 d3 d4 : Char) (rest : List Char)
    (a b c3 d : Nat)
    (e1 : hexVal? d1 = some a) (e2 : hexVal? d2 = some b)
    (e3 : hexVal? d3 = some c3) (e4 : hexVal? d4 = some d) :
    parseStrBody acc ('\\' :: 'u' :: d1 :: d2 :: d3 :: d4 :: rest) =
      (if a * 4096 + b * 256 + c3 * 16 + d < 55296
        then parseStrBody (Char.ofNat (a * 4096 + b * 256 + c3 * 16 + d) :: acc) rest
        else none) := by
  rw [parseStrBody.eq_def]
  simp only [e1, e2, e3, e4, Char.reduceEq, reduceIte, decide_False, decide_True, Bool.or_self,
    Bool.or_false, Bool.false_or, Bool.true_or, Bool.or_true, Bool.false_eq_true,
    Bool.true_eq_false, if_false, if_true]

theorem parseStrBody_other (acc : List Char) (c : Char) (rest : List Char)
    (h1 : ¬ c = '"') (h2 : ¬ c = '\\') :
    parseStrBody acc (c :: rest) = parseStrBody (c :: acc) rest := by
  rw [parseStrBody.eq_def]
  simp only [if_neg h1, if_neg h2]

/-- The string-body parser inverts the character escaper. -/
theorem parseStrBody_append (cs : List Char) : ∀ acc rest,
    parseStrBody acc (cs.flatMap escC ++ '"' :: rest) = some (⟨acc.reverse ++ cs⟩, rest) := by
  induction cs with
  | nil =>
    intro acc rest
    simpa using parseStrBody_quote acc rest
  | cons c cs ih =>
    intro acc rest
    by_cases h1 : c = '"'
    · subst h1
      simp only [List.flatMap_cons, escC, reduceIte, List.append_assoc, List.cons_append,
        List.nil_append]
      rw [parseStrBody_escQuote, ih]
      simp
    by_cases h2 : c = '\\'
    · subst h2
      simp only [List.flatMap_cons, escC, Char.reduceEq, reduceIte, List.append_assoc,
        List.cons_append, List.nil_append]
      rw [parseStrBody_escBackslash, ih]
      simp
    by_cases h3 : c = '\n'
    · subst h3
      simp only [List.flatMap_cons, escC, Char.reduceEq, reduceIte, List.append_assoc,
        List.cons_append, List.nil_append]
      rw [parseStrBody_escN, ih]
      simp
    by_cases h4 : c = '\r'
    · subst h4
      simp only [List.flatMap_cons, escC, Char.reduceEq, reduceIte, List.append_assoc,
        List.cons_append, List.nil_append]
      rw [parseStrBody_escR, ih]
      simp
    by_cases h5 : c = '\t'
    · subst h5
      simp only [List.flatMap_cons, escC, Char.reduceEq, reduceIte, List.append_assoc,
        List.cons_append, List.nil_append]
      rw [parseStrBody_escT, ih]
      simp
    by_cases h6 : c = Char.ofNat 8
    · subst h6
      simp only [List.flatMap_cons, escC, Char.reduceEq, reduceIte, List.append_assoc,
        List.cons_append, List.nil_append]
      rw [parseStrBody_escB, ih]
      simp
    by_cases h7 : c = Char.ofNat 12
    · subst h7
      simp only [List.flatMap_cons, escC, Char.reduceEq, reduceIte, List.append_assoc,
        List.cons_append, List.nil_append]
      rw [parseStrBody_escF, ih]
      simp
    by_cases h8 : c.toNat < 32
    · have hdiv : c.toNat / 16 < 16 := by omega
      have hmod : c.toNat % 16 < 16 := Nat.mod_lt _ (by omega)
      rw [List.flatMap_cons, escC.eq_def]
      simp only [if_neg h1, if_neg h2, if_neg h3, if_neg h4, if_neg h5, if_neg h6, if_neg h7,
        if_pos h8, List.append_assoc, List.cons_append, List.nil_append]
      rw [parseStrBody_escU acc '0' '0' (hexDigitChar (c.toNat / 16)) (hexDigitChar (c.toNat % 16))
        _ 0 0 (c.toNat / 16) (c.toNat % 16) (by decide) (by decide)
        (hexVal_hexDigitChar _ hdiv) (hexVal_hexDigitChar _ hmod)]
      have hval : 0 * 4096 + 0 * 256 + c.toNat / 16 * 16 + c.toNat % 16 = c.toNat := by omega
      rw [hval, if_pos (by omega), char_ofNat_toNat, ih]
      simp
    · rw [List.flatMap_cons, escC.eq_def]
      simp only [if_neg h1, if_neg h2, if_neg h3, if_neg h4, if_neg h5, if_neg h6, if_neg h7,
        if_neg h8, List.append_assoc, List.cons_append, List.nil_append]
      rw [parseStrBody_other _ _ _ h1 h2, ih]
      simp

/-- The string-literal parser inverts the string-literal encoder. -/
theorem parseStrLit_enc (s : String) (rest : List Char) :
    parseStrLit (encStrLit s ++ rest) = some (s, rest) := by
  rw [encStrLit]
  simp only [List.cons_append, parseStrLit, reduceIte, List.append_assoc, List.cons_append,
    List.nil_append]
  rw [parseStrBody_append]
  simp

theorem encStrLit_ne_nil (s : String) : encStrLit s ≠ [] := by
  simp [encStrLit]

/-- Item lists are at least as long as their item count. -/
theorem encItems_length_ge : ∀ (x : String) (xs : List String),
    xs.length + 1 ≤ (encItems (x :: xs)).length := by
  intro x xs
  induction xs generalizing x with
  | nil => simp [encItems, encStrLit]
  | cons y ys ih =>
    have h := ih y
    rw [show encItems (x :: y :: ys) = encStrLit x ++ ',' :: encItems (y :: ys) from rfl]
    simp only [List.length_append, List.length_cons]
    omega

/-- The item parser inverts the item encoder, under any sufficient fuel. -/
theorem parseItemsF_enc : ∀ (xs : List String) (x : String) (fuel : Nat) (rest : List Char),
    xs.length < fuel →
    parseItemsF fuel (encItems (x :: xs) ++ ']' :: rest) = some (x :: xs, rest) := by
  intro xs
  induction xs with
  | nil =>
    intro x fuel rest hfuel
    match fuel, hfuel with
    | fuel + 1, _ =>
      rw [parseItemsF]
      simp only [encItems]
      rw [parseStrLit_enc]
      simp
  | cons y ys ih =>
    intro x fuel rest hfuel
    match fuel, hfuel with
    | fuel + 1, hfuel =>
      have hlt : ys.length < fuel := by
        simp only [List.length_cons] at hfuel
        omega
      rw [show encItems (x :: y :: ys) = encStrLit x ++ ',' :: encItems (y :: ys) from rfl]
      rw [parseItemsF]
      simp only [List.append_assoc, List.cons_append]
      rw [parseStrLit_enc]
      simp only [Char.reduceEq, reduceIte, if_false, if_true]
      rw [ih y fuel rest hlt]

/-- `JSON.parse` inverts `JSON.stringify` on every `string[]` value. -/
theorem parseJsonValue_encArr (l : List String) :
    parseJsonValue (encArr l) = some (.arr l) := by
  match l with
  | [] => decide
  | x :: xs =>
    obtain ⟨t, ht⟩ : ∃ t, encItems (x :: xs) = '"' :: t := by
      cases xs <;> exact ⟨_, rfl⟩
    have key : parseItemsF ('"' :: (t ++ [']'])).length ('"' :: (t ++ [']']))
        = some (x :: xs, []) := by
      have hfe := parseItemsF_enc xs x ('"' :: (t ++ [']'])).length []
        (by
          have hlen := encItems_length_ge x xs
          rw [ht] at hlen
          simp only [List.length_cons, List.length_append, List.length_nil] at hlen ⊢
          omega)
      rw [show encItems (x :: xs) ++ ']' :: [] = '"' :: (t ++ [']']) by simp [ht]] at hfe
      exact hfe
    have h1 : encArr (x :: xs) = '[' :: '"' :: (t ++ [']']) := by
      simp [encArr, ht]
    rw [h1, parseJsonValue.eq_def]
    simp only [Char.reduceEq, reduceIte, if_false, if_true]
    rw [key]
    simp

/-- Trimming is the identity on bracketed encoder output. -/
theorem jsTrimChars_encArr (l : List String) : jsTrimChars (encArr l) = encArr l := by
  have h1 : encArr l = '[' :: (encItems l ++ [']']) := by simp [encArr]
  rw [h1, jsTrimChars]
  rw [List.dropWhile_cons]
  rw [if_neg (by decide)]
  rw [show ('[' :: (encItems l ++ [']'])).reverse = ']' :: ((encItems l).reverse ++ ['[']) by simp]
  rw [List.dropWhile_cons]
  rw [if_neg (by decide)]
  simp

/-- Crown lemma for the round-trip claims: the storage read path decodes a
`JSON.stringify`-encoded list column back to exactly the written list. -/
theorem parseArrayOpt_stringify (l : List String) :
    parseArrayOpt (some (jsonStringify l)) = l := by
  simp only [parseArrayOpt, jsonStringify]
  rw [if_neg (by simp [encArr])]
  rw [jsTrimChars_encArr]
  rw [if_neg (by simp [encArr])]
  rw [parseJsonValue_encArr]

/-! ## Ordering facts for `getAllConventions` -/

theorem keyLe_total (a b : WithTop Int × WithTop Int) : keyLe a b ∨ keyLe b a := by
  rcases lt_trichotomy a.1 b.1 with h | h | h
  · exact Or.inr (Or.inl h)
  · rcases le_total a.2 b.2 with h2 | h2
    · exact Or.inr (Or.inr ⟨h.symm, h2⟩)
    · exact Or.inl (Or.inr ⟨h, h2⟩)
  · exact Or.inl (Or.inl h)

theorem keyLe_trans (a b c : WithTop Int × WithTop Int)
    (h1 : keyLe a b) (h2 : keyLe b c) : keyLe a c := by
  rcases h1 with h1 | ⟨h1, h1'⟩ <;> rcases h2 with h2 | ⟨h2, h2'⟩
  · exact Or.inl (lt_trans h2 h1)
  · exact Or.inl (by rw [← h2]; exact h1)
  · exact Or.inl (by rw [h1]; exact h2)
  · exact Or.inr ⟨h1.trans h2, h2'.trans h1'⟩

instance : IsTotal ((WithTop Int × WithTop Int) × ConvRow) rowLe :=
  ⟨fun a b => keyLe_total a.1 b.1⟩

instance : IsTrans ((WithTop Int × WithTop Int) × ConvRow) rowLe :=
  ⟨fun a b c => keyLe_trans a.1 b.1 c.1⟩

theorem keyRows_map_snd : ∀ (rows : List ConvRow) (keyed),
    keyRows rows = .ok keyed → keyed.map Prod.snd = rows := by
  intro rows
  induction rows with
  | nil =>
    intro keyed h
    simp only [keyRows] at h
    cases h
    rfl
  | cons r rest ih =>
    intro keyed h
    rw [keyRows] at h
    split at h
    · cases h
    · split at h
      · cases h
        simpa using ih _ (by assumption)
      · cases h

theorem keyRows_key_eq : ∀ (rows : List ConvRow) (keyed),
    keyRows rows = .ok keyed →
    ∀ p ∈ keyed, sortKeyE p.2.conventionNumber = some p.1 := by
  intro rows
  induction rows with
  | nil =>
    intro keyed h
    simp only [keyRows] at h
    cases h
    intro p hp
    cases hp
  | cons r rest ih =>
    intro keyed h
    rw [keyRows] at h
    split at h
    · cases h
    · split at h
      · cases h
        intro p hp
        rcases List.mem_cons.mp hp with rfl | hp
        · simpa using (by assumption : sortKeyE r.conventionNumber = some _)
        · exact ih _ (by assumption) p hp
      · cases h

theorem keyRows_error_iff : ∀ rows : List ConvRow,
    keyRows rows = .error () ↔ ∃ r ∈ rows, sortKeyE r.conventionNumber = none := by
  intro rows
  induction rows with
  | nil => simp [keyRows]
  | cons r rest ih =>
    rw [keyRows]
    cases hsk : sortKeyE r.conventionNumber with
    | none =>
      constructor
      · intro _
        exact ⟨r, by simp, hsk⟩
      · intro _
        rfl
    | some k =>
      cases hk : keyRows rest with
      | ok ks =>
        constructor
        · intro h
          cases h
        · rintro ⟨x, hx, hkx⟩
          rcases List.mem_cons.mp hx with rfl | hx
          · rw [hsk] at hkx
            cases hkx
          · have hcontra := ih.mpr ⟨x, hx, hkx⟩
            rw [hk] at hcontra
            cases hcontra
      | error e =>
        cases e
        constructor
        · intro _
          obtain ⟨x, hx, hkx⟩ := ih.mp hk
          exact ⟨x, List.mem_cons_of_mem r hx, hkx⟩
        · intro _
          rfl

theorem getAll_error_iff (st : Store) :
    getAllConventions st = .error () ↔
      ∃ r ∈ st.rows, sortKeyE r.conventionNumber = none := by
  rw [getAllConventions]
  rw [← keyRows_error_iff]
  split
  · rename_i e heq
    cases e
    simp [heq]
  · rename_i keyed heq
    simp [heq]

theorem getAll_perm (st : Store) (out : List ConventionOut)
    (h : getAllConventions st = .ok out) : out.Perm (st.rows.map decodeRow) := by
  rw [getAllConventions] at h
  split at h
  · cases h
  · rename_i keyed heq
    cases h
    have hperm : (List.insertionSort rowLe keyed).Perm keyed :=
      List.perm_insertionSort rowLe keyed
    have h1 : ((List.insertionSort rowLe keyed).map (fun kr => decodeRow kr.2)).Perm
        (keyed.map (fun kr => decodeRow kr.2)) := hperm.map _
    have h2 : keyed.map (fun kr => decodeRow kr.2) = st.rows.map decodeRow := by
      rw [← keyRows_map_snd st.rows keyed heq, List.map_map]
      rfl
    rwa [h2] at h1

theorem getAll_sorted (st : Store) (out : List ConventionOut)
    (h : getAllConventions st = .ok out) : out.Pairwise outKeyLe := by
  rw [getAllConventions] at h
  split at h
  · cases h
  · rename_i keyed heq
    cases h
    have hsorted : (List.insertionSort rowLe keyed).Pairwise rowLe :=
      List.sorted_insertionSort rowLe keyed
    rw [List.pairwise_map]
    refine hsorted.imp_of_mem ?_
    intro a b ha hb hr
    have hka : sortKeyE a.2.conventionNumber = some a.1 :=
      keyRows_key_eq st.rows keyed heq a (by rwa [List.mem_insertionSort] at ha)
    have hkb : sortKeyE b.2.conventionNumber = some b.1 :=
      keyRows_key_eq st.rows keyed heq b (by rwa [List.mem_insertionSort] at hb)
    intro ka kb hka' hkb'
    have ea : ka = a.1 := by
      have : sortKeyE a.2.conventionNumber = some ka := hka'
      rw [hka] at this
      exact (Option.some.inj this).symm
    have eb : kb = b.1 := by
      have : sortKeyE b.2.conventionNumber = some kb := hkb'
      rw [hkb] at this
      exact (Option.some.inj this).symm
    rw [ea, eb]
    exact hr

theorem getAll_mem (st : Store) (out : List ConventionOut) (r : ConvRow)
    (h : getAllConventions st = .ok out) (hr : r ∈ st.rows) : decodeRow r ∈ out :=
  (getAll_perm st out h).mem_iff.mpr (List.mem_map_of_mem decodeRow hr)

/-! ## C1 — role-based access matrix -/

/-- C1: role-based access matrix.  For any authenticated principal: a
`viewer` passes the role gate of every Convention/financial-contribution
read route (list, get-by-id, search, stats, contribution list) and is
rejected with `Forbidden` by the role gate of every Convention and
financial-contribution mutation and of every `/api/users` route; an `editor`
additionally passes every Convention and financial-contribution mutation
(and the attachment delete) but is rejected from every `/api/users` route;
an `admin` passes every `/api/users` route.  (`POST /api/upload` mounts no
role middleware at all and is outside the enumerated matrix.) -/
theorem claim1_role_matrix (u : UserR) :
    (u.role = UserRole.VIEWER →
      routePermits u .conventionsList = true ∧
      routePermits u .conventionGet = true ∧
      routePermits u .conventionsSearch = true ∧
      routePermits u .conventionsStats = true ∧
      routePermits u .fcList = true ∧
      routePermits u .conventionCreate = false ∧
      routePermits u .conventionUpdate = false ∧
      routePermits u .conventionDelete = false ∧
      routePermits u .fcCreate = false ∧
      routePermits u .fcUpdate = false ∧
      routePermits u .fcDelete = false ∧
      routePermits u .uploadDelete = false ∧
      routePermits u .usersList = false ∧
      routePermits u .usersCreate = false ∧
      routePermits u .usersUpdate = false ∧
      routePermits u .usersDelete = false) ∧
    (u.role = UserRole.EDITOR →
      routePermits u .conventionsList = true ∧
      routePermits u .conventionGet = true ∧
      routePermits u .conventionsSearch = true ∧
      routePermits u .conventionsStats = true ∧
      routePermits u .fcList = true ∧
      routePermits u .conventionCreate = true ∧
      routePermits u .conventionUpdate = true ∧
      routePermits u .conventionDelete = true ∧
      routePermits u .fcCreate = true ∧
      routePermits u .fcUpdate = true ∧
      routePermits u .fcDelete = true ∧
      routePermits u .uploadDelete = true ∧
      routePermits u .usersList = false ∧
      routePermits u .usersCreate = false ∧
      routePermits u .usersUpdate = false ∧
      routePermits u .usersDelete = false) ∧
    (u.role = UserRole.ADMIN →
      routePermits u .usersList = true ∧
      routePermits u .usersCreate = true ∧
      routePermits u .usersUpdate = true ∧
      routePermits u .usersDelete = true) := by
  refine ⟨fun h => ?_, fun h => ?_, fun h => ?_⟩ <;>
    simp [routePermits, routeRoles, h, UserRole.ADMIN, UserRole.EDITOR, UserRole.VIEWER]

/-- Witness for C1 at the three concrete principals. -/
theorem claim1_role_matrix_witness :
    (routePermits viewerU .conventionsList = true ∧
      routePermits viewerU .conventionGet = true ∧
      routePermits viewerU .conventionsSearch = true ∧
      routePermits viewerU .conventionsStats = true ∧
      routePermits viewerU .fcList = true ∧
      routePermits viewerU .conventionCreate = false ∧
      routePermits viewerU .conventionUpdate = false ∧
      routePermits viewerU .conventionDelete = false ∧
      routePermits viewerU .fcCreate = false ∧
      routePermits viewerU .fcUpdate = false ∧
      routePermits viewerU .fcDelete = false ∧
      routePermits viewerU .uploadDelete = false ∧
      routePermits viewerU .usersList = false ∧
      routePermits viewerU .usersCreate = false ∧
      routePermits viewerU .usersUpdate = false ∧
      routePermits viewerU .usersDelete = false) ∧
    (routePermits editorU .conventionsList = true ∧
      routePermits editorU .conventionGet = true ∧
      routePermits editorU .conventionsSearch = true ∧
      routePermits editorU .conventionsStats = true ∧
      routePermits editorU .fcList = true ∧
      routePermits editorU .conventionCreate = true ∧
      routePermits editorU .conventionUpdate = true ∧
      routePermits editorU .conventionDelete = true ∧
      routePermits editorU .fcCreate = true ∧
      routePermits editorU .fcUpdate = true ∧
      routePermits editorU .fcDelete = true ∧
      routePermits editorU .uploadDelete = true ∧
      routePermits editorU .usersList = false ∧
      routePermits editorU .usersCreate = false ∧
      routePermits editorU .usersUpdate = false ∧
      routePermits editorU .usersDelete = false) ∧
    (routePermits adminU .usersList = true ∧
      routePermits adminU .usersCreate = true ∧
      routePermits adminU .usersUpdate = true ∧
      routePermits adminU .usersDelete = true) :=
  ⟨(claim1_role_matrix viewerU).1 rfl,
   (claim1_role_matrix editorU).2.1 rfl,
   (claim1_role_matrix adminU).2.2 rfl⟩

/-! ## C2 — stale-session invalidation -/

/-- C2: stale-session invalidation.  A request whose session binds a user id
that no longer resolves to a user, or resolves to a non-active user, is
answered `Unauthenticated` with the session destroyed; re-running the gate
on the session state it left behind is again `Unauthenticated`; and the
guarded handler is never invoked (the response is independent of the
handler, and is 401). -/
theorem claim2_stale_session (users : List UserR) (uid : String)
    (h : getUserById users uid = none ∨
      ∃ u, getUserById users uid = some u ∧ u.isActive ≠ "true") :
    requireAuthStep users (some uid) = (.unauthenticated, none) ∧
    requireAuthStep users ((requireAuthStep users (some uid)).2) = (.unauthenticated, none) ∧
    (∀ h1 h2 : UserR → Nat, runProtected users (some uid) h1 = runProtected users (some uid) h2) ∧
    (runProtected users (some uid) (fun _ => 200)).1 = 401 := by
  have key : requireAuthStep users (some uid) = (.unauthenticated, none) := by
    rcases h with h | ⟨u, hu, hact⟩
    · simp [requireAuthStep, h]
    · simp [requireAuthStep, hu, hact]
  refine ⟨key, by rw [key]; rfl, ?_, ?_⟩
  · intro h1 h2
    simp [runProtected, key]
  · simp [runProtected, key]

/-- Witness for C2: a session bound to a deactivated user. -/
theorem claim2_stale_session_witness :
    (getUserById [inactiveU] "i1" = some inactiveU ∧ inactiveU.isActive ≠ "true") ∧
    (requireAuthStep [inactiveU] (some "i1") = (.unauthenticated, none) ∧
      requireAuthStep [inactiveU] ((requireAuthStep [inactiveU] (some "i1")).2) =
        (.unauthenticated, none) ∧
      (∀ h1 h2 : UserR → Nat,
        runProtected [inactiveU] (some "i1") h1 = runProtected [inactiveU] (some "i1") h2) ∧
      (runProtected [inactiveU] (some "i1") (fun _ => 200)).1 = 401) :=
  ⟨⟨by decide, by decide⟩,
   claim2_stale_session [inactiveU] "i1" (Or.inr ⟨inactiveU, by decide, by decide⟩)⟩

/-! ## C3 — credential validation -/

/-- C3: credential validation.  `validateUser` returns a user exactly when
the username lookup finds that user, its `isActive` flag is `"true"`, and
the bcrypt comparison accepts the password; under the store's username
uniqueness invariant this is equivalent to the existence of a matching
active user, and every failing combination yields the one `none` outcome
(so nothing distinguishes which condition failed). -/
theorem claim3_credential_validation (users : List UserR)
    (compare : String → String → Bool) (username password : String) :
    (∀ u : UserR, validateUser users compare username password = some u ↔
      (getUserByUsername users username = some u ∧ u.isActive = "true" ∧
        compare password u.password = true)) ∧
    (users.Pairwise (fun a b => a.username ≠ b.username) →
      ((validateUser users compare username password).isSome ↔
        ∃ u ∈ users, u.username = username ∧ u.isActive = "true" ∧
          compare password u.password = true)) := by
  constructor
  · intro u
    rw [validateUser]
    cases hfind : getUserByUsername users username with
    | none => simp
    | some w =>
      by_cases hact : w.isActive = "true"
      · by_cases hcmp : compare password w.password
        · simp only [hact, hcmp, ne_eq, not_true_eq_false, if_false, if_true,
            Option.some.injEq]
          constructor
          · rintro rfl
            exact ⟨rfl, hact, hcmp⟩
          · rintro ⟨rfl, -, -⟩
            rfl
        · simp only [hact, ne_eq, not_true_eq_false, if_false, Option.some.injEq]
          rw [if_neg (by simpa using hcmp)]
          constructor
          · rintro h
            cases h
          · rintro ⟨rfl, -, hc⟩
            exact absurd hc hcmp
      · simp only [ne_eq, hact, not_false_eq_true, if_true, Option.some.injEq]
        constructor
        · rintro h
          cases h
        · rintro ⟨rfl, ha, -⟩
          exact absurd ha hact
  · intro hpw
    induction users with
    | nil => simp [validateUser, getUserByUsername]
    | cons a l ih =>
      have hpwt : l.Pairwise (fun x y => x.username ≠ y.username) :=
        (List.pairwise_cons.mp hpw).2
      have hhead : ∀ b ∈ l, a.username ≠ b.username :=
        (List.pairwise_cons.mp hpw).1
      by_cases hname : a.username = username
      · have hfind : getUserByUsername (a :: l) username = some a := by
          simp [getUserByUsername, List.find?_cons, hname]
        rw [validateUser, hfind]
        constructor
        · intro hsome
          by_cases hact : a.isActive = "true"
          · by_cases hcmp : compare password a.password
            · exact ⟨a, by simp, hname, hact, hcmp⟩
            · exfalso
              simp [hact, hcmp] at hsome
          · exfalso
            simp [hact] at hsome
        · rintro ⟨u, hu, hun, hua, huc⟩
          rcases List.mem_cons.mp hu with rfl | hu
          · simp [hua, huc]
          · exact absurd (hname.trans hun.symm) (hhead u hu)
      · have hfind : getUserByUsername (a :: l) username = getUserByUsername l username := by
          simp [getUserByUsername, List.find?_cons, hname]
        have hval : validateUser (a :: l) compare username password =
            validateUser l compare username password := by
          rw [validateUser, validateUser, hfind]
        rw [hval]
        rw [ih hpwt]
        constructor
        · rintro ⟨u, hu, rest⟩
          exact ⟨u, List.mem_cons_of_mem a hu, rest⟩
        · rintro ⟨u, hu, hun, rest⟩
          rcases List.mem_cons.mp hu with rfl | hu
          · exact absurd hun hname
          · exact ⟨u, hu, hun, rest⟩

/-- Witness for C3: a one-user store with a matching comparison. -/
theorem claim3_credential_validation_witness :
    ([adminU].Pairwise (fun a b => a.username ≠ b.username)) ∧
    (validateUser [adminU] (fun p h => p = "pw" && h = "ha") "a" "pw" = some adminU ↔
      (getUserByUsername [adminU] "a" = some adminU ∧ adminU.isActive = "true" ∧
        (fun p h => p = "pw" && h = "ha") "pw" adminU.password = true)) ∧
    ((validateUser [adminU] (fun p h => p = "pw" && h = "ha") "a" "pw").isSome ↔
      ∃ u ∈ [adminU], u.username = "a" ∧ u.isActive = "true" ∧
        (fun p h => p = "pw" && h = "ha") "pw" u.password = true) :=
  ⟨by simp,
   (claim3_credential_validation [adminU] (fun p h => p = "pw" && h = "ha") "a" "pw").1 adminU,
   (claim3_credential_validation [adminU] (fun p h => p = "pw" && h = "ha") "a" "pw").2 (by simp)⟩

/-! ## C4 — password-hash confidentiality -/

/-- C4: password-hash confidentiality.  Every user-serializing read path
(login response, `GET /api/auth/user`, `GET /api/users` entries and the full
mapped list, `POST /api/users` response, `PUT /api/users/:id` response) is
invariant under arbitrary changes of the stored password hash — the hash
cannot flow into any of these responses, for any user in the store. -/
theorem claim4_password_confidentiality (u : UserR) (p : String) :
    loginView { u with password := p } = loginView u ∧
    authUserView { u with password := p } = authUserView u ∧
    safeUserView { u with password := p } = safeUserView u ∧
    createUserView { u with password := p } = createUserView u ∧
    updateUserView { u with password := p } = updateUserView u ∧
    (∀ (users : List UserR) (f : UserR → String),
      users.map (fun v => safeUserView { v with password := f v }) =
        users.map safeUserView) := by
  refine ⟨rfl, rfl, rfl, rfl, rfl, ?_⟩
  intro users f
  induction users with
  | nil => rfl
  | cons a l ih => simp [ih, safeUserView]

/-! ## C5 — admin self-delete protection -/

/-- C5: admin self-delete protection.  An authenticated active admin issuing
`DELETE /api/users/:id` on their own id is rejected by the dedicated guard
(status 400 with the self-delete message, before `storage.deleteUser` runs),
the users table is unchanged, and the admin's record still resolves
afterward exactly as before. -/
theorem claim5_self_delete (users : List UserR) (uid : String) (u : UserR)
    (hu : getUserById users uid = some u) (hact : u.isActive = "true")
    (hrole : u.role = "admin") :
    deleteUserPipeline users (some uid) u.id = (400, users) ∧
    getUserById (deleteUserPipeline users (some uid) u.id).2 uid = some u := by
  have hauth : requireAuthStep users (some uid) = (.ok u, some uid) := by
    simp [requireAuthStep, hu, hact]
  have hperm : routePermits u .usersDelete = true := by
    simp [routePermits, routeRoles, hrole, UserRole.ADMIN]
  have hpipe : deleteUserPipeline users (some uid) u.id = (400, users) := by
    simp [deleteUserPipeline, hauth, hperm]
  exact ⟨hpipe, by rw [hpipe, hu]⟩

/-- Witness for C5: the seed admin deleting itself. -/
theorem claim5_self_delete_witness :
    (getUserById [adminU, viewerU] "a1" = some adminU ∧ adminU.isActive = "true" ∧
      adminU.role = "admin") ∧
    deleteUserPipeline [adminU, viewerU] (some "a1") adminU.id = (400, [adminU, viewerU]) ∧
    getUserById (deleteUserPipeline [adminU, viewerU] (some "a1") adminU.id).2 "a1" =
      some adminU :=
  ⟨⟨by decide, by decide, by decide⟩,
   claim5_self_delete [adminU, viewerU] "a1" adminU (by decide) (by decide) (by decide)⟩

/-! ## C6 — multi-valued field round-trip -/

theorem parseArrayOpt_map_stringify (o : Option (List String)) :
    parseArrayOpt (o.map jsonStringify) = o.getD [] := by
  cases o with
  | none => rfl
  | some l => simpa using parseArrayOpt_stringify l

theorem find?_id_append (rows : List ConvRow) (row : ConvRow) (n : Nat)
    (h : ∀ r ∈ rows, r.id ≠ n) (hrow : row.id = n) :
    (rows ++ [row]).find? (fun r => r.id == n) = some row := by
  induction rows with
  | nil => simp [List.find?, hrow]
  | cons a l ih =>
    have ha : (a.id == n) = false := by
      simpa using h a (by simp)
    simp only [List.cons_append, List.find?_cons, ha]
    exact ih (fun r hr => h r (List.mem_cons_of_mem a hr))

/-- C6: multi-valued field round-trip.  Creating a Convention with any
string lists for `province`, `partners` and `attachments` and reading it
back through `getConvention` returns exactly those lists in order (absent
lists read back as `[]`); the created row also appears in any successful
`getAllConventions` result with the same decoded lists.  The defensive
decoder likewise maps each legacy encoding variant of the claim's example
values — JSON array string, comma-separated string, bare scalar — to the
same lists. -/
theorem claim6_roundtrip (st : Store) (d : InsertConvention) (creator : String)
    (hfresh : ∀ r ∈ st.rows, r.id ≠ st.nextId) :
    (∃ c, getConvention (createConvention d creator st).2 (createConvention d creator st).1 =
        some c ∧
      c.province = d.province.getD [] ∧ c.partners = d.partners.getD [] ∧
      c.attachments = d.attachments.getD []) ∧
    (∀ out, getAllConventions (createConvention d creator st).2 = .ok out →
      ∃ c ∈ out, c.id = st.nextId ∧ c.province = d.province.getD [] ∧
        c.partners = d.partners.getD [] ∧ c.attachments = d.attachments.getD []) ∧
    parseArrayOpt (some "[\"A\",\"B\"]") = ["A", "B"] ∧
    parseArrayOpt (some "A,B") = ["A", "B"] ∧
    parseArrayOpt (some "X") = ["X"] := by
  have hdecode : decodeRow (createConventionRow d creator st.nextId) =
      { decodeRow (createConventionRow d creator st.nextId) with
        province := d.province.getD [], partners := d.partners.getD [],
        attachments := d.attachments.getD [] } := by
    simp only [decodeRow, createConventionRow]
    rw [parseArrayOpt_map_stringify, parseArrayOpt_map_stringify, parseArrayOpt_map_stringify]
  refine ⟨?_, ?_, by decide, by decide, by decide⟩
  · refine ⟨decodeRow (createConventionRow d creator st.nextId), ?_, ?_, ?_, ?_⟩
    · rw [getConvention, createConvention]
      simp only []
      rw [find?_id_append st.rows _ st.nextId hfresh rfl]
      rfl
    · rw [hdecode]
    · rw [hdecode]
    · rw [hdecode]
  · intro out hout
    refine ⟨decodeRow (createConventionRow d creator st.nextId), ?_, rfl, ?_, ?_, ?_⟩
    · exact getAll_mem _ out _ hout (by simp [createConvention])
    · rw [hdecode]
    · rw [hdecode]
    · rw [hdecode]

/-- Witness for C6: the claim's example payload on an empty store. -/
theorem claim6_roundtrip_witness :
    (∀ r ∈ emptyStore.rows, r.id ≠ emptyStore.nextId) ∧
    ((∃ c, getConvention (createConvention sampleInsert "a1" emptyStore).2
        (createConvention sampleInsert "a1" emptyStore).1 = some c ∧
      c.province = sampleInsert.province.getD [] ∧
      c.partners = sampleInsert.partners.getD [] ∧
      c.attachments = sampleInsert.attachments.getD []) ∧
    (∀ out, getAllConventions (createConvention sampleInsert "a1" emptyStore).2 = .ok out →
      ∃ c ∈ out, c.id = emptyStore.nextId ∧ c.province = sampleInsert.province.getD [] ∧
        c.partners = sampleInsert.partners.getD [] ∧
        c.attachments = sampleInsert.attachments.getD []) ∧
    parseArrayOpt (some "[\"A\",\"B\"]") = ["A", "B"] ∧
    parseArrayOpt (some "A,B") = ["A", "B"] ∧
    parseArrayOpt (some "X") = ["X"]) :=
  ⟨by simp [emptyStore],
   claim6_roundtrip emptyStore sampleInsert "a1" (by simp [emptyStore])⟩

/-! ## C7 — list ordering of `getAllConventions` -/

/-- Counterexample to C7 as stated.  In `storeNoSlash`, the convention
numbered `"5"` does not parse as `<int>/<int>` (no year component), yet the
code places it FIRST — before the parseable `"1/2024"` — because a `NULL`
sort key sorts first under Postgres `DESC` ordering; the claim requires it
after all parseable numbers.  And in `storeBadNum` the number `"abc/1"` has
a non-empty, non-integer sequence component, so the `::int` cast makes the
whole operation fail rather than "still succeed". -/
theorem claim7_counterexample :
    getAllConventions storeNoSlash =
      .ok [decodeRow (mkRow 2 "5"), decodeRow (mkRow 1 "1/2024")] ∧
    getAllConventions storeNoSlash ≠
      .ok [decodeRow (mkRow 1 "1/2024"), decodeRow (mkRow 2 "5")] ∧
    getAllConventions storeBadNum = .error () := by
  refine ⟨by rfl, ?_, by rfl⟩
  intro h
  rw [show getAllConventions storeNoSlash =
      .ok [decodeRow (mkRow 2 "5"), decodeRow (mkRow 1 "1/2024")] from rfl] at h
  exact absurd (Except.ok.inj h) (by decide)

/-- C7 amended: `getAllConventions` fails exactly when some
`conventionNumber` has a non-empty component that does not cast to a 32-bit
integer (non-numeric, or out of the `int4` range); on success the result is
a permutation of the decoded rows sorted
descending by the year component and then the sequence component of
`conventionNumber`, with missing components (no `/`, or an empty part)
sorting FIRST — at the highest priority, before all parseable numbers — per
Postgres `DESC NULLS FIRST` semantics. -/
theorem claim7_order (st : Store) :
    (getAllConventions st = .error () ↔
      ∃ r ∈ st.rows, sortKeyE r.conventionNumber = none) ∧
    (∀ out, getAllConventions st = .ok out →
      out.Perm (st.rows.map decodeRow) ∧ out.Pairwise outKeyLe) :=
  ⟨getAll_error_iff st, fun out h => ⟨getAll_perm st out h, getAll_sorted st out h⟩⟩

/-- Witness for C7 on the two-row store. -/
theorem claim7_order_witness :
    (getAllConventions storeNoSlash =
      .ok [decodeRow (mkRow 2 "5"), decodeRow (mkRow 1 "1/2024")]) ∧
    ([decodeRow (mkRow 2 "5"), decodeRow (mkRow 1 "1/2024")].Perm
      (storeNoSlash.rows.map decodeRow) ∧
      [decodeRow (mkRow 2 "5"), decodeRow (mkRow 1 "1/2024")].Pairwise outKeyLe) :=
  ⟨rfl, (claim7_order storeNoSlash).2 _ rfl⟩

/-! ## C8 — partial-update field wiping -/

/-- Counterexample to C8 as stated.  Passing `province` as the empty list —
an "empty" value in the claim's sense — does not overwrite the stored
column with `NULL`: an empty array is truthy in JavaScript, so the column is
overwritten with the encoded empty array `"[]"`.  (The read-back is still
the empty list, and the previous value `["A"]` is still destroyed.) -/
theorem claim8_counterexample :
    updEmptyProvince.province = some [] ∧
    rowWithProvince.province = some "[\"A\"]" ∧
    (applyUpdateSet updEmptyProvince rowWithProvince).province = some "[]" ∧
    (applyUpdateSet updEmptyProvince rowWithProvince).province ≠ none := by
  refine ⟨by decide, by decide, by decide, by decide⟩

/-- C8 amended: on every `updateConvention` call the six explicitly-listed
fields are recomputed from the update payload alone, never preserved from
the stored row: an omitted (or `""`) money field, an omitted list field and
an omitted (or `""`) `delegatedProjectOwner` all store SQL `NULL` (read
back as absent / the empty list); a present list field — including the
empty list — stores its JSON encoding, which reads back as exactly the
given list. -/
theorem claim8_wipe (u : UpdateConvention) (r : ConvRow) :
    (u.amount = none → (applyUpdateSet u r).amount = none) ∧
    (u.amount = some "" → (applyUpdateSet u r).amount = none) ∧
    (u.contribution = none → (applyUpdateSet u r).contribution = none) ∧
    (u.contribution = some "" → (applyUpdateSet u r).contribution = none) ∧
    (u.province = none → (applyUpdateSet u r).province = none ∧
      (decodeRow (applyUpdateSet u r)).province = []) ∧
    (u.partners = none → (applyUpdateSet u r).partners = none ∧
      (decodeRow (applyUpdateSet u r)).partners = []) ∧
    (u.attachments = none → (applyUpdateSet u r).attachments = none ∧
      (decodeRow (applyUpdateSet u r)).attachments = []) ∧
    (u.delegatedProjectOwner = none → (applyUpdateSet u r).delegatedProjectOwner = none) ∧
    (u.delegatedProjectOwner = some "" →
      (applyUpdateSet u r).delegatedProjectOwner = none) ∧
    (∀ l, u.province = some l → (applyUpdateSet u r).province = some (jsonStringify l) ∧
      (decodeRow (applyUpdateSet u r)).province = l) ∧
    (∀ r2 : ConvRow,
      (applyUpdateSet u r).amount = (applyUpdateSet u r2).amount ∧
      (applyUpdateSet u r).contribution = (applyUpdateSet u r2).contribution ∧
      (applyUpdateSet u r).province = (applyUpdateSet u r2).province ∧
      (applyUpdateSet u r).partners = (applyUpdateSet u r2).partners ∧
      (applyUpdateSet u r).attachments = (applyUpdateSet u r2).attachments ∧
      (applyUpdateSet u r).delegatedProjectOwner =
        (applyUpdateSet u r2).delegatedProjectOwner) := by
  refine ⟨?_, ?_, ?_, ?_, ?_, ?_, ?_, ?_, ?_, ?_, ?_⟩
  · intro h
    simp [applyUpdateSet, normMoney, h]
  · intro h
    simp [applyUpdateSet, normMoney, h]
  · intro h
    simp [applyUpdateSet, normMoney, h]
  · intro h
    simp [applyUpdateSet, normMoney, h]
  · intro h
    exact ⟨by simp [applyUpdateSet, h], by simp [decodeRow, applyUpdateSet, h, parseArrayOpt]⟩
  · intro h
    exact ⟨by simp [applyUpdateSet, h], by simp [decodeRow, applyUpdateSet, h, parseArrayOpt]⟩
  · intro h
    exact ⟨by simp [applyUpdateSet, h], by simp [decodeRow, applyUpdateSet, h, parseArrayOpt]⟩
  · intro h
    simp [applyUpdateSet, h]
  · intro h
    simp [applyUpdateSet, h]
  · intro l h
    refine ⟨by simp [applyUpdateSet, h], ?_⟩
    simp only [decodeRow, applyUpdateSet, h, Option.map_some']
    exact parseArrayOpt_stringify l
  · intro r2
    exact ⟨rfl, rfl, rfl, rfl, rfl, rfl⟩

/-- Witness for C8: the all-absent update on the stored row. -/
theorem claim8_wipe_witness :
    (updNone.amount = none ∧ updNone.province = none) ∧
    (applyUpdateSet updNone rowWithProvince).amount = none ∧
    ((applyUpdateSet updNone rowWithProvince).province = none ∧
      (decodeRow (applyUpdateSet updNone rowWithProvince)).province = []) :=
  ⟨⟨rfl, rfl⟩,
   (claim8_wipe updNone rowWithProvince).1 rfl,
   (claim8_wipe updNone rowWithProvince).2.2.2.2.1 rfl⟩

/-! ## C9 — malformed-identifier guard -/

theorem takeWhile_all (p : Char → Bool) :
    ∀ l : List Char, l.all p = true → l.takeWhile p = l := by
  intro l h
  induction l with
  | nil => rfl
  | cons c cs ih =>
    simp only [List.all_cons, Bool.and_eq_true] at h
    simp [List.takeWhile_cons, h.1, ih h.2]

theorem isDigit_not_ws (c : Char) (h : c.isDigit = true) : isWs c = false := by
  simp only [Char.isDigit, decide_eq_true_eq, Bool.and_eq_true] at h
  obtain ⟨h1, h2⟩ := h
  have h1n : 48 ≤ c.toNat := h1
  have h2n : c.toNat ≤ 57 := h2
  simp only [isWs, jsWsCodes, List.contains_eq_any_beq, List.any_cons, List.any_nil,
    Bool.or_false, Bool.or_eq_false_iff, beq_eq_false_iff_ne, ne_eq]
  omega

theorem isDigit_ne (c : Char) (h : c.isDigit = true) (d : Char) (hd : d.isDigit = false) :
    ¬ c = d := by
  rintro rfl
  rw [h] at hd
  cases hd

/-- `parseInt` on a non-empty all-digit character list is the decimal value
of the whole list. -/
theorem jsParseInt_digits (l : List Char) (hne : l ≠ [])
    (hdig : l.all Char.isDigit = true) : jsParseInt ⟨l⟩ = some ((digitsVal l : Int)) := by
  obtain ⟨c, cs, rfl⟩ := List.exists_cons_of_ne_nil hne
  simp only [List.all_cons, Bool.and_eq_true] at hdig
  obtain ⟨hc, hcs⟩ := hdig
  have hdata : (String.mk (c :: cs)).data = c :: cs := rfl
  have hdw : (c :: cs).dropWhile isWs = c :: cs := by
    rw [List.dropWhile_cons, isDigit_not_ws c hc]
    simp
  have hneg : ((c :: cs).head? = some '-') = False := by
    simp only [List.head?_cons, Option.some.injEq]
    exact eq_false (isDigit_ne c hc '-' (by decide))
  have hplus : ((c :: cs).head? = some '+') = False := by
    simp only [List.head?_cons, Option.some.injEq]
    exact eq_false (isDigit_ne c hc '+' (by decide))
  rw [jsParseInt]
  rw [hdata, hdw]
  rw [if_neg (by rw [hneg, hplus]; simp)]
  have hnothex : ¬ ((c :: cs).head? = some '0' ∧
      ((c :: cs).tail.head? = some 'x' ∨ (c :: cs).tail.head? = some 'X')) := by
    rintro ⟨-, hx⟩
    cases cs with
    | nil => simp at hx
    | cons d ds =>
      simp only [List.all_cons, Bool.and_eq_true] at hcs
      simp only [List.tail_cons, List.head?_cons, Option.some.injEq] at hx
      rcases hx with hx | hx
      · exact isDigit_ne d hcs.1 'x' (by decide) hx
      · exact isDigit_ne d hcs.1 'X' (by decide) hx
  rw [jsParseIntCore, if_neg hnothex]
  rw [takeWhile_all Char.isDigit (c :: cs) (by simp [hc, hcs])]
  rw [jsParseDigits, if_neg (by simp)]
  simp only [if_false, hneg, decide_False, intSign, Bool.false_eq_true]

/-- Counterexample to C9 as stated.  `"12abc"` is not a numeric string, yet
`parseInt` extracts `12`, the `isNaN` guard does not fire, and the handler
calls the storage layer with id 12 instead of answering 400.  And on the
download route even a fully non-numeric `:id` reaches the storage layer:
the route has no `isNaN` check at all. -/
theorem claim9_counterexample :
    conventionIdGate "12abc" = .storeLookup 12 ∧
    conventionIdGate "12abc" ≠ .invalidArgument ∧
    downloadConventionGate "abc" = .storeLookupNaN := by
  refine ⟨by decide, by decide, by decide⟩

/-- C9 amended: on `GET`/`PUT`/`DELETE` `/api/conventions/:id` the request
is answered 400 without any storage call exactly when `parseInt(:id)` is
`NaN`; when `parseInt` extracts a leading integer — also from non-numeric
strings such as `"12abc"` — the storage lookup runs with that value.  A
fully numeric id always passes with its decimal value.  The download route
performs no check and reaches the storage lookup in every case. -/
theorem claim9_id_guard (s : String) :
    (jsParseInt s = none → conventionIdGate s = .invalidArgument) ∧
    (∀ n, jsParseInt s = some n → conventionIdGate s = .storeLookup n) ∧
    (jsParseInt s = none → downloadConventionGate s = .storeLookupNaN) ∧
    (∀ n, jsParseInt s = some n → downloadConventionGate s = .storeLookup n) ∧
    (s.data ≠ [] → s.data.all Char.isDigit = true →
      conventionIdGate s = .storeLookup (digitsVal s.data)) := by
  have hs : String.mk s.data = s := by cases s; rfl
  refine ⟨?_, ?_, ?_, ?_, ?_⟩
  · intro h
    rw [conventionIdGate, h]
  · intro n h
    rw [conventionIdGate, h]
  · intro h
    rw [downloadConventionGate, h]
  · intro n h
    rw [downloadConventionGate, h]
  · intro h1 h2
    have := jsParseInt_digits s.data h1 h2
    rw [hs] at this
    rw [conventionIdGate, this]

/-- Witness for C9 at concrete identifiers. -/
theorem claim9_id_guard_witness :
    (jsParseInt "abc" = none ∧ conventionIdGate "abc" = .invalidArgument) ∧
    (jsParseInt "7" = some 7 ∧ conventionIdGate "7" = .storeLookup 7) ∧
    (downloadConventionGate "zz" = .storeLookupNaN) ∧
    ("451".data ≠ [] ∧ "451".data.all Char.isDigit = true ∧
      conventionIdGate "451" = .storeLookup (digitsVal "451".data)) :=
  ⟨⟨by decide, (claim9_id_guard "abc").1 (by decide)⟩,
   ⟨by decide, (claim9_id_guard "7").2.1 7 (by decide)⟩,
   (claim9_id_guard "zz").2.2.1 (by decide),
   ⟨by decide, by decide, (claim9_id_guard "451").2.2.2.2 (by decide) (by decide)⟩⟩

/-! ## C10 — upload rejection codes -/

/-- Counterexample to C10 as stated.  A file whose MIME type is outside the
allow-list is rejected by `fileFilter` with a plain `Error` (not a
`MulterError`), and the route's error callback maps any such error to the
generic 500 response whose body carries no `error` code — not a
distinguishing rejection code. -/
theorem claim10_counterexample :
    fileFilterCheck "text/plain" = some ⟨"Error", none⟩ ∧
    uploadErrorResponse ⟨"Error", none⟩ = ⟨500, none⟩ ∧
    (uploadErrorResponse ⟨"Error", none⟩).errorCode = none := by
  refine ⟨by decide, by decide, by decide⟩

/-- C10 amended: an oversized file is rejected 400 with code
`FILE_TOO_LARGE`; a sixth file is rejected 400 with code `UNEXPECTED_FILE`
(the route's `upload.array('files', 5)` raises `LIMIT_UNEXPECTED_FILE` for
the file beyond `maxCount`; no `limits.files` is configured, so the
dispatcher's `TOO_MANY_FILES` branch never fires on this route) — two
distinct codes; a disallowed MIME type, however, surfaces as the generic
500 failure with no distinguishing code, for every type outside the
allow-list. -/
theorem claim10_upload_codes :
    uploadErrorResponse multerFileSizeErr = ⟨400, some "FILE_TOO_LARGE"⟩ ∧
    uploadErrorResponse multerTooManyFilesErr = ⟨400, some "UNEXPECTED_FILE"⟩ ∧
    (uploadErrorResponse multerFileSizeErr).errorCode ≠
      (uploadErrorResponse multerTooManyFilesErr).errorCode ∧
    (∀ m, allowedTypes.contains m = false →
      (fileFilterCheck m).map uploadErrorResponse = some ⟨500, none⟩) := by
  refine ⟨by decide, by decide, by decide, ?_⟩
  intro m hm
  rw [fileFilterCheck, if_neg (by rw [hm]; decide)]
  rfl

/-- Witness for C10 at a concrete disallowed type. -/
theorem claim10_upload_codes_witness :
    allowedTypes.contains "text/csv" = false ∧
    (fileFilterCheck "text/csv").map uploadErrorResponse = some ⟨500, none⟩ :=
  ⟨by decide, claim10_upload_codes.2.2.2 "text/csv" (by decide)⟩

end Conventions
